import Mathlib

/-!
Verification development for the PiSSTVpp2 SSTV encoding engine.

The repository ships only Python test harnesses and audio analyzers; the
encoder they drive is specified in `spec.md`.  The definitions below embed
that engine: the protocol table and its constants (VIS codes and nominal
transmission times appear verbatim in `tests/test_suite.py`), the tone
synthesizer with its rounding-error carry and phase accumulator, the VIS
header encoder, the scan-line encoder, the CW generator, and the CLI
validation contract exercised by `tests/test_edge_cases.py` and
`tests/util/test_error_codes.py`.
-/

set_option maxRecDepth 4000

/-- Modelled from the spec: the typed error enumeration of section 7 that the
excluded CLI layer maps to numeric exit codes 111-119. -/
inductive SSTVError where
  | noInputImage
  | invalidProtocol
  | invalidFormat
  | invalidSampleRate
  | invalidAspectMode
  | invalidCallsign
  | invalidWpm
  | invalidTone
  | cwRequiresCallsign
deriving DecidableEq, Repr

/-- Modelled from the spec: the numeric exit codes observed by the error-code
test suite (111 missing input .. 119 CW-requires-callsign). -/
def errorCode : SSTVError → ℕ
  | .noInputImage => 111
  | .invalidProtocol => 112
  | .invalidFormat => 113
  | .invalidSampleRate => 114
  | .invalidAspectMode => 115
  | .invalidCallsign => 116
  | .invalidWpm => 117
  | .invalidTone => 118
  | .cwRequiresCallsign => 119

/-- Modelled from the spec: the seven statically known protocol variants. -/
inductive Proto where
  | m1 | m2 | s1 | s2 | sdx | r36 | r72
deriving DecidableEq, Repr, Fintype

/-- VIS codes per protocol, as listed in `tests/test_suite.py`. -/
def visCode : Proto → ℕ
  | .m1 => 44
  | .m2 => 40
  | .s1 => 60
  | .s2 => 56
  | .sdx => 76
  | .r36 => 8
  | .r72 => 12

/-- Documented nominal transmission time in seconds, as listed in
`tests/test_suite.py` (`time_sec` column). -/
def nominalSec : Proto → ℕ
  | .m1 => 114
  | .m2 => 58
  | .s1 => 110
  | .s2 => 71
  | .sdx => 269
  | .r36 => 36
  | .r72 => 72

/-- Modelled from the spec: target image width of each protocol. -/
def protoW : Proto → ℕ
  | _ => 320

/-- Modelled from the spec: target image height (scan-line count). -/
def protoH : Proto → ℕ
  | .r36 => 240
  | .r72 => 240
  | _ => 256

/-- A tone request to the synthesizer: frequency in Hz, duration counted in
units of 10 nanoseconds (so 1 ms = 100000 units), and peak amplitude. -/
structure Segment where
  freq : ℚ
  dur : ℕ
  amp : ℚ
deriving DecidableEq, Repr

/-- Duration units per second: the segment granularity is 10 ns. -/
def USCALE : ℕ := 100000000

/-- Modelled from the spec: the synthesizer state threaded through every
tone-emission call (section 4.2): the phase accumulator (in turns, kept in
[0,1)) and the accumulated duration-rounding error.  The carry is stored as
the exact integer `cumulativeUnits * rate - USCALE * samplesEmitted`. -/
structure SynthSt where
  phase : ℚ
  carry : ℤ
deriving DecidableEq, Repr

/-- Modelled from the spec: a rational stand-in for the sine oscillator,
`sinQ t ~ sin (2 pi t)` for `t` in turns (Bhaskara's approximation), used as
the model's waveform; the silence and timing claims do not depend on its
exact shape, only on boundedness and `sinQ`-independence at zero amplitude. -/
def sinQ (t : ℚ) : ℚ :=
  let u := Int.fract t
  if u ≤ 1/2 then
    32 * u * (1 - 2*u) / (5 - 8 * u * (1 - 2*u))
  else
    -(32 * (u - 1/2) * (1 - 2*(u - 1/2)) / (5 - 8 * (u - 1/2) * (1 - 2*(u - 1/2))))

/-- Modelled from the spec: quantization of one sample,
`amplitude_center + amplitude_scale * sin(phase)` written to unsigned 16-bit
with center 32768 (the scale is carried in `amp`). -/
def sampleVal (amp phase : ℚ) : ℕ :=
  ((32768 : ℤ) + Int.floor (amp * sinQ phase + 1/2)).toNat

/-- Modelled from the spec: `append_tone` (section 4.2).  The duration is
converted to an exact integer sample count by rounding, with the accumulated
rounding error carried in the state; the phase accumulator advances by
`freq / rate` turns per sample so consecutive tones connect in phase. -/
def appendTone (r : ℕ) (st : SynthSt) (s : Segment) : SynthSt × List ℕ :=
  let ideal : ℤ := (s.dur : ℤ) * r + st.carry
  let n : ℕ := ((ideal + 50000000) / 100000000).toNat
  let inc : ℚ := s.freq / r
  (⟨Int.fract (st.phase + n * inc), ideal - 100000000 * n⟩,
   (List.range n).map (fun (k : ℕ) => sampleVal s.amp (Int.fract (st.phase + ((k : ℚ) + 1) * inc))))

/-- Modelled from the spec: the orchestrator's sample buffer is filled by
running the synthesizer over consecutive segments with one threaded state. -/
def runSegs (r : ℕ) (st : SynthSt) : List Segment → SynthSt × List ℕ
  | [] => (st, [])
  | s :: rest =>
    let p := appendTone r st s
    let q := runSegs r p.1 rest
    (q.1, p.2 ++ q.2)

/-- Total requested duration of a segment list, in 10 ns units. -/
def segDurSum (segs : List Segment) : ℕ := (segs.map Segment.dur).sum

theorem segDurSum_append (a b : List Segment) :
    segDurSum (a ++ b) = segDurSum a + segDurSum b := by
  simp [segDurSum]

theorem appendTone_snd_length (r : ℕ) (st : SynthSt) (s : Segment) :
    ((appendTone r st s).2).length =
      ((((s.dur : ℤ) * r + st.carry + 50000000) / 100000000)).toNat := by
  simp only [appendTone, List.length_map, List.length_range]

theorem appendTone_fst_carry (r : ℕ) (st : SynthSt) (s : Segment) :
    ((appendTone r st s).1).carry = (s.dur : ℤ) * r + st.carry -
      100000000 * ((((s.dur : ℤ) * r + st.carry + 50000000) / 100000000)).toNat := by
  simp [appendTone]

theorem runSegs_cons (r : ℕ) (st : SynthSt) (a : Segment) (l : List Segment) :
    runSegs r st (a :: l) =
      ((runSegs r (appendTone r st a).1 l).1,
       (appendTone r st a).2 ++ (runSegs r (appendTone r st a).1 l).2) := rfl

/-- The carry-based synthesizer emits, over any segment list, exactly the
rounded total `(totalUnits * rate + carry + HALF) / USCALE` samples: the
per-call rounding errors cancel, as the spec demands ("accumulated rounding
error carried to the next call to prevent long-term drift"). -/
theorem runSegs_length (r : ℕ) (segs : List Segment) :
    ∀ st : SynthSt, -50000000 ≤ st.carry → st.carry < 50000000 →
      ((runSegs r st segs).2.length : ℤ) =
        (((segDurSum segs : ℤ) * r + st.carry + 50000000) / 100000000) := by
  induction segs with
  | nil =>
    intro st h1 h2
    simp only [runSegs, List.length_nil, segDurSum, List.map_nil, List.sum_nil]
    omega
  | cons a l ih =>
    intro st h1 h2
    have hB : (0 : ℤ) ≤ (a.dur : ℤ) * r := by positivity
    have hc := appendTone_fst_carry r st a
    have hcarry1 : -50000000 ≤ ((appendTone r st a).1).carry := by
      rw [hc]; generalize (a.dur : ℤ) * r = B at hB ⊢; omega
    have hcarry2 : ((appendTone r st a).1).carry < 50000000 := by
      rw [hc]; generalize (a.dur : ℤ) * r = B at hB ⊢; omega
    have hrec := ih ((appendTone r st a).1) hcarry1 hcarry2
    rw [runSegs_cons]
    simp only [List.length_append, Nat.cast_add, appendTone_snd_length]
    rw [hrec, hc]
    have hsum : (segDurSum (a :: l) : ℤ) = (a.dur : ℤ) + (segDurSum l : ℤ) := by
      simp [segDurSum]
    rw [hsum, add_mul]
    have hA : (0 : ℤ) ≤ (segDurSum l : ℤ) * r := by positivity
    generalize (a.dur : ℤ) * r = B at hB ⊢
    generalize (segDurSum l : ℤ) * r = A at hA ⊢
    omega

/-- Modelled from the spec: the decoded RGB pixel buffer handed to the core
(section 3, Image Buffer).  The pixel map is total; width and height bound
the meaningful region. -/
structure Image where
  width : ℕ
  height : ℕ
  pix : ℕ → ℕ → ℕ × ℕ × ℕ

/-- Modelled from the spec: pixel-intensity-to-frequency mapping of the scan
tones, `1500 Hz (black) .. 2300 Hz (white)` linear in the 0-255 channel. -/
def freqOfLevel (v : ℕ) : ℚ := 1500 + (v : ℚ) * 800 / 255

/-- Amplitude scale of the synthesized waveform around the 32768 center;
`util/validate_fix.py` reports the fixed encoder's range as -13000..+13000. -/
def AMP : ℚ := 13000

/-- Red channel of a pixel. -/
def chR (p : ℕ × ℕ × ℕ) : ℕ := p.1

/-- Green channel of a pixel. -/
def chG (p : ℕ × ℕ × ℕ) : ℕ := p.2.1

/-- Blue channel of a pixel. -/
def chB (p : ℕ × ℕ × ℕ) : ℕ := p.2.2

/-- Modelled from the spec: RGB to luminance for the Robot modes. -/
def lumY (p : ℕ × ℕ × ℕ) : ℕ := (299 * chR p + 587 * chG p + 114 * chB p) / 1000

/-- Modelled from the spec: R-Y chroma value of the Robot modes, recentered
on 128 and clamped to the 0-255 channel range. -/
def chromaRY (p : ℕ × ℕ × ℕ) : ℕ :=
  (((chR p : ℤ) - (lumY p : ℤ)) / 2 + 128).toNat.min 255

/-- Modelled from the spec: B-Y chroma value of the Robot modes. -/
def chromaBY (p : ℕ × ℕ × ℕ) : ℕ :=
  (((chB p : ℤ) - (lumY p : ℤ)) / 2 + 128).toNat.min 255

/-- Modelled from the spec: one channel scan of one line (section 4.6): one
tone per pixel, each `per-channel-scan-duration / image_width` long. -/
def chanScan (img : Image) (y : ℕ) (chan : ℕ × ℕ × ℕ → ℕ) (pxDur : ℕ) : List Segment :=
  (List.range img.width).map (fun x => ⟨freqOfLevel (chan (img.pix x y)), pxDur, AMP⟩)

/-- Modelled from the spec: subsampled chroma scan of the Robot modes: half
the horizontal resolution, one value per pixel pair. -/
def chromaScan (img : Image) (y : ℕ) (chan : ℕ × ℕ × ℕ → ℕ) (pxDur : ℕ) : List Segment :=
  (List.range 160).map (fun x => ⟨freqOfLevel (chan (img.pix (2 * x) y)), pxDur, AMP⟩)

/-- Modelled from the spec: one Martin scan line (published Martin timing:
4.862 ms sync at 1200 Hz, 0.572 ms porch at 1500 Hz, G/B/R channel scans
each followed by a 0.572 ms separator).  `pxDur` is the per-pixel duration
in 10 ns units (45760 for Martin 1, 22880 for Martin 2). -/
def martinLine (img : Image) (pxDur : ℕ) (y : ℕ) : List Segment :=
  [⟨1200, 486200, AMP⟩, ⟨1500, 57200, AMP⟩]
  ++ chanScan img y chG pxDur ++ [⟨1500, 57200, AMP⟩]
  ++ chanScan img y chB pxDur ++ [⟨1500, 57200, AMP⟩]
  ++ chanScan img y chR pxDur ++ [⟨1500, 57200, AMP⟩]

/-- Modelled from the spec: one Scottie scan line (published Scottie timing:
1.5 ms separators at 1500 Hz before G and B, a 9 ms sync at 1200 Hz plus
1.5 ms porch before R).  `pxDur` is 43200 for Scottie 1, 27520 for
Scottie 2 and 108000 for Scottie DX. -/
def scottieLine (img : Image) (pxDur : ℕ) (y : ℕ) : List Segment :=
  [⟨1500, 150000, AMP⟩] ++ chanScan img y chG pxDur
  ++ [⟨1500, 150000, AMP⟩] ++ chanScan img y chB pxDur
  ++ [⟨1200, 900000, AMP⟩, ⟨1500, 150000, AMP⟩] ++ chanScan img y chR pxDur

/-- Modelled from the spec: one Robot 36 scan line (9 ms sync, 3 ms porch,
88 ms luminance scan, 4.5 ms even/odd separator, 1.5 ms porch, 44 ms
subsampled chroma scan alternating R-Y on even and B-Y on odd lines). -/
def robot36Line (img : Image) (y : ℕ) : List Segment :=
  [⟨1200, 900000, AMP⟩, ⟨1500, 300000, AMP⟩]
  ++ chanScan img y lumY 27500
  ++ [⟨if y % 2 = 0 then 1500 else 2300, 450000, AMP⟩, ⟨1900, 150000, AMP⟩]
  ++ chromaScan img y (if y % 2 = 0 then chromaRY else chromaBY) 27500

/-- Modelled from the spec: one Robot 72 scan line (9 ms sync, 3 ms porch,
138 ms luminance scan, then both subsampled chroma channels, each preceded
by a 4.5 ms separator and a 1.5 ms porch). -/
def robot72Line (img : Image) (y : ℕ) : List Segment :=
  [⟨1200, 900000, AMP⟩, ⟨1500, 300000, AMP⟩]
  ++ chanScan img y lumY 43125
  ++ [⟨1500, 450000, AMP⟩, ⟨1900, 150000, AMP⟩]
  ++ chromaScan img y chromaRY 43125
  ++ [⟨2300, 450000, AMP⟩, ⟨1900, 150000, AMP⟩]
  ++ chromaScan img y chromaBY 43125

/-- Modelled from the spec: per-protocol scan line dispatch (section 4.6). -/
def lineSegs : Proto → Image → ℕ → List Segment
  | .m1 => fun img y => martinLine img 45760 y
  | .m2 => fun img y => martinLine img 22880 y
  | .s1 => fun img y => scottieLine img 43200 y
  | .s2 => fun img y => scottieLine img 27520 y
  | .sdx => fun img y => scottieLine img 108000 y
  | .r36 => robot36Line
  | .r72 => robot72Line

/-- Modelled from the spec: the SSTV line encoder walks the normalized image
top to bottom, one scan line per row. -/
def imageSegs (p : Proto) (img : Image) : List Segment :=
  ((List.range (protoH p)).map (lineSegs p img)).flatten

/-- Modelled from the spec: the seven VIS data bits, transmitted LSB first,
30 ms per bit, 1100 Hz for logic 1 and 1300 Hz for logic 0. -/
def visBits (code : ℕ) : List Segment :=
  (List.range 7).map (fun i => ⟨if code.testBit i then 1100 else 1300, 3000000, AMP⟩)

/-- Number of set bits among the seven VIS data bits. -/
def visOnes (code : ℕ) : ℕ :=
  ((List.range 7).filter (fun i => code.testBit i)).length

/-- Modelled from the spec: the even-parity bit appended to the VIS data. -/
def visParitySeg (code : ℕ) : Segment :=
  ⟨if visOnes code % 2 = 1 then 1100 else 1300, 3000000, AMP⟩

/-- Modelled from the spec: `emit_vis` (section 4.5): 300 ms calibration
tone at 1900 Hz, 10 ms break at 1200 Hz, 300 ms at 1900 Hz, 30 ms start bit
at 1200 Hz, seven data bits LSB first, one even-parity bit, and a 30 ms
stop bit at 1200 Hz. -/
def emitVis (p : Proto) : List Segment :=
  [⟨1900, 30000000, AMP⟩, ⟨1200, 1000000, AMP⟩, ⟨1900, 30000000, AMP⟩, ⟨1200, 3000000, AMP⟩]
  ++ visBits (visCode p) ++ [visParitySeg (visCode p)] ++ [⟨1200, 3000000, AMP⟩]

/-- Modelled from the spec: the fixed ITU Morse table (digits, letters, `/`),
`true` for a dash, `false` for a dit; characters with no mapping yield
`none` and are skipped, the documented modelling choice for the spec's open
question. -/
def morsePattern (c : Char) : Option (List Bool) :=
  if c = 'A' then some [false, true]
  else if c = 'B' then some [true, false, false, false]
  else if c = 'C' then some [true, false, true, false]
  else if c = 'D' then some [true, false, false]
  else if c = 'E' then some [false]
  else if c = 'F' then some [false, false, true, false]
  else if c = 'G' then some [true, true, false]
  else if c = 'H' then some [false, false, false, false]
  else if c = 'I' then some [false, false]
  else if c = 'J' then some [false, true, true, true]
  else if c = 'K' then some [true, false, true]
  else if c = 'L' then some [false, true, false, false]
  else if c = 'M' then some [true, true]
  else if c = 'N' then some [true, false]
  else if c = 'O' then some [true, true, true]
  else if c = 'P' then some [false, true, true, false]
  else if c = 'Q' then some [true, true, false, true]
  else if c = 'R' then some [false, true, false]
  else if c = 'S' then some [false, false, false]
  else if c = 'T' then some [true]
  else if c = 'U' then some [false, false, true]
  else if c = 'V' then some [false, false, false, true]
  else if c = 'W' then some [false, true, true]
  else if c = 'X' then some [true, false, false, true]
  else if c = 'Y' then some [true, false, true, true]
  else if c = 'Z' then some [true, true, false, false]
  else if c = '0' then some [true, true, true, true, true]
  else if c = '1' then some [false, true, true, true, true]
  else if c = '2' then some [false, false, true, true, true]
  else if c = '3' then some [false, false, false, true, true]
  else if c = '4' then some [false, false, false, false, true]
  else if c = '5' then some [false, false, false, false, false]
  else if c = '6' then some [true, false, false, false, false]
  else if c = '7' then some [true, true, false, false, false]
  else if c = '8' then some [true, true, true, false, false]
  else if c = '9' then some [true, true, true, true, false]
  else if c = '/' then some [true, false, false, true, false]
  else none

/-- Modelled from the spec: one Morse element of one character: a dit (one
unit) or dash (three units) at the CW tone, each followed by a one-unit
intra-character silence gap.  `u` is the unit duration in 10 ns units. -/
def morseElemSegs (toneHz : ℕ) (u : ℕ) (dash : Bool) : List Segment :=
  [⟨(toneHz : ℚ), if dash then 3 * u else u, AMP⟩, ⟨0, u, 0⟩]

/-- Modelled from the spec: one callsign character: its dit/dash elements,
then two extra silence units so the trailing gap totals the standard
three-unit inter-character gap (unsupported characters are skipped). -/
def morseCharSegs (toneHz : ℕ) (u : ℕ) (c : Char) : List Segment :=
  match morsePattern c with
  | none => []
  | some els => (els.map (morseElemSegs toneHz u)).flatten ++ [⟨0, 2 * u, 0⟩]

/-- Modelled from the spec: the CW Morse generator (section 4.3):
uppercase-normalize the callsign, emit each character's elements with
standard timing (one unit = `1200/WPM` ms, held in 10 ns units), after a
short leading silence gap separating the CW tail from the image tones. -/
def cwSegs (callsign : String) (wpm toneHz : ℕ) : List Segment :=
  let u := 120000000 / wpm
  ⟨0, 50000000, 0⟩ :: (callsign.toUpper.data.map (morseCharSegs toneHz u)).flatten

/-- Modelled from the spec: aspect-mode handling of the pixel source adapter
(section 4.1): `stretch` resamples directly; `center` scales to cover and
crops symmetrically; `pad` scales to fit and fills the border with black. -/
def normalizeImg (img : Image) (p : Proto) (mode : String) : Image :=
  let tw := protoW p
  let th := protoH p
  if mode = "stretch" then
    ⟨tw, th, fun x y => img.pix (x * img.width / tw) (y * img.height / th)⟩
  else if mode = "center" then
    let cw := min img.width (img.height * tw / th)
    let ch := min img.height (img.width * th / tw)
    let ox := (img.width - cw) / 2
    let oy := (img.height - ch) / 2
    ⟨tw, th, fun x y => img.pix (ox + x * cw / tw) (oy + y * ch / th)⟩
  else
    let dw := min tw (img.width * th / max 1 img.height)
    let dh := min th (img.height * tw / max 1 img.width)
    let bx := (tw - dw) / 2
    let by_ := (th - dh) / 2
    ⟨tw, th, fun x y =>
      if bx ≤ x ∧ x < bx + dw ∧ by_ ≤ y ∧ y < by_ + dh then
        img.pix ((x - bx) * img.width / max 1 dw) ((y - by_) * img.height / max 1 dh)
      else (0, 0, 0)⟩

/-- Modelled from the spec: protocol table lookup over the case-sensitive
lowercase short codes (section 4.4). -/
def lookupProto (k : String) : Except SSTVError Proto :=
  if k = "m1" then .ok .m1
  else if k = "m2" then .ok .m2
  else if k = "s1" then .ok .s1
  else if k = "s2" then .ok .s2
  else if k = "sdx" then .ok .sdx
  else if k = "r36" then .ok .r36
  else if k = "r72" then .ok .r72
  else .error .invalidProtocol

/-- Modelled from the spec: aspect-mode validation (one of the three literal
lowercase strings). -/
def validateAspect (a : String) : Except SSTVError String :=
  if a = "center" ∨ a = "pad" ∨ a = "stretch" then .ok a
  else .error .invalidAspectMode

/-- Modelled from the spec: sample-rate validation: `none` models a `-r`
argument that did not parse as an integer (non-numeric or fractional);
integers are accepted exactly on the inclusive band [8000, 48000]. -/
def validateRate (r? : Option ℤ) : Except SSTVError ℕ :=
  match r? with
  | none => .error .invalidSampleRate
  | some n => if 8000 ≤ n ∧ n ≤ 48000 then .ok n.toNat else .error .invalidSampleRate

/-- Modelled from the spec: callsign well-formedness: nonempty, at most 49
characters, over letters, digits and `/`. -/
def callsignOk (s : String) : Bool :=
  decide (s.length ≤ 49) && !s.isEmpty &&
    s.data.all (fun c => c.isAlpha || c.isDigit || c == '/')

/-- Modelled from the spec: default words-per-minute when only a callsign is
supplied. -/
def defaultWpm : ℕ := 15

/-- Modelled from the spec: default CW tone frequency in Hz when only a
callsign is supplied. -/
def defaultTone : ℕ := 800

/-- Modelled from the spec: CW parameter validation: WPM or tone without a
callsign is `CwRequiresCallsign`; with a callsign, the callsign pattern and
the WPM [1,50] and tone [400,2000] bands are enforced, absent values taking
the defaults. -/
def validateCw (cs : Option String) (w t : Option ℤ) :
    Except SSTVError (Option (String × ℕ × ℕ)) :=
  match cs with
  | none =>
    if w.isSome || t.isSome then .error .cwRequiresCallsign else .ok none
  | some s =>
    if callsignOk s then
      match w with
      | some wv =>
        if 1 ≤ wv ∧ wv ≤ 50 then
          match t with
          | some tv =>
            if 400 ≤ tv ∧ tv ≤ 2000 then .ok (some (s, wv.toNat, tv.toNat))
            else .error .invalidTone
          | none => .ok (some (s, wv.toNat, defaultTone))
        else .error .invalidWpm
      | none =>
        match t with
        | some tv =>
          if 400 ≤ tv ∧ tv ≤ 2000 then .ok (some (s, defaultWpm, tv.toNat))
          else .error .invalidTone
        | none => .ok (some (s, defaultWpm, defaultTone))
    else .error .invalidCallsign

/-- Modelled from the spec: the complete segment plan of one encoding: VIS
header, image scan lines, then the optional CW signature. -/
def encodePlan (p : Proto) (img : Image) (aspect : String)
    (cw : Option (String × ℕ × ℕ)) : List Segment :=
  emitVis p ++ imageSegs p (normalizeImg img p aspect) ++
    (match cw with
     | none => []
     | some (s, wv, tv) => cwSegs s wv tv)

/-- Modelled from the spec: the encoding orchestrator (section 4.7): run
every validation, then synthesize VIS header, scan lines and optional CW
signature into one sample stream; any validation failure is returned as a
typed error before a single sample is produced. -/
def encode (img : Image) (key aspect : String) (r? : Option ℤ)
    (cs : Option String) (w t : Option ℤ) : Except SSTVError (List ℕ) :=
  if img.width = 0 ∨ img.height = 0 then .error .noInputImage
  else
    match lookupProto key with
    | .error e => .error e
    | .ok p =>
      match validateAspect aspect with
      | .error e => .error e
      | .ok a =>
        match validateRate r? with
        | .error e => .error e
        | .ok r =>
          match validateCw cs w t with
          | .error e => .error e
          | .ok cw => .ok ((runSegs r ⟨0, 0⟩ (encodePlan p img a cw)).2)

/-- Modelled from the spec: the first validation failure of one encoding
request, in the orchestrator's checking order, `none` when every validation
passes. -/
def firstValidationError (img : Image) (key aspect : String) (r? : Option ℤ)
    (cs : Option String) (w t : Option ℤ) : Option SSTVError :=
  if img.width = 0 ∨ img.height = 0 then some .noInputImage
  else
    match lookupProto key with
    | .error e => some e
    | .ok _ =>
      match validateAspect aspect with
      | .error e => some e
      | .ok _ =>
        match validateRate r? with
        | .error e => some e
        | .ok _ =>
          match validateCw cs w t with
          | .error e => some e
          | .ok _ => none

/-- Modelled from the spec: strict integer parse of a CLI numeric argument
(an optional minus sign followed by decimal digits and nothing else), the
contract of the excluded argument layer for `-r`, `-W` and `-T`. -/
def digitsToNat (l : List Char) : Option ℕ :=
  if l.isEmpty then none
  else l.foldl (fun acc c =>
    acc.bind (fun a => if c.isDigit then some (10 * a + (c.toNat - 48)) else none))
    (some 0)

/-- Modelled from the spec: parse of the full numeric argument string. -/
def parseIntArg (s : String) : Option ℤ :=
  match s.data with
  | '-' :: rest => (digitsToNat rest).map (fun n => -(n : ℤ))
  | l => (digitsToNat l).map (fun n => (n : ℤ))

/-- Modelled from the spec: the CLI pipeline: parse the `-r` argument
string, then run the core orchestrator. -/
def encodeCli (img : Image) (key aspect rateArg : String)
    (cs : Option String) (w t : Option ℤ) : Except SSTVError (List ℕ) :=
  encode img key aspect (parseIntArg rateArg) cs w t

/-- Length of the produced stream, zero for a failed encoding. -/
def streamLen (e : Except SSTVError (List ℕ)) : ℕ :=
  match e with
  | .error _ => 0
  | .ok s => s.length

theorem segDurSum_chanScan (img : Image) (y : ℕ) (ch : ℕ × ℕ × ℕ → ℕ) (d : ℕ) :
    segDurSum (chanScan img y ch d) = img.width * d := by
  simp only [segDurSum, chanScan, List.map_map]
  have : (Segment.dur ∘ fun x => (⟨freqOfLevel (ch (img.pix x y)), d, AMP⟩ : Segment))
      = fun _ => d := rfl
  rw [this, List.map_const', List.sum_replicate, List.length_range, smul_eq_mul]

theorem segDurSum_chromaScan (img : Image) (y : ℕ) (ch : ℕ × ℕ × ℕ → ℕ) (d : ℕ) :
    segDurSum (chromaScan img y ch d) = 160 * d := by
  simp only [segDurSum, chromaScan, List.map_map]
  have : (Segment.dur ∘ fun x => (⟨freqOfLevel (ch (img.pix (2 * x) y)), d, AMP⟩ : Segment))
      = fun _ => d := rfl
  rw [this, List.map_const', List.sum_replicate, List.length_range, smul_eq_mul]

/-- Per-line requested duration of each protocol in 10 ns units, for a
320-pixel-wide normalized image (Martin 1: 446.446 ms, Martin 2:
226.798 ms, Scottie 1: 428.22 ms, Scottie 2: 277.692 ms, Scottie DX:
1050.3 ms, Robot 36: 150 ms, Robot 72: 300 ms). -/
def lineUnits : Proto → ℕ
  | .m1 => 44644600
  | .m2 => 22679800
  | .s1 => 42822000
  | .s2 => 27769200
  | .sdx => 105030000
  | .r36 => 15000000
  | .r72 => 30000000

theorem segDurSum_cons (a : Segment) (l : List Segment) :
    segDurSum (a :: l) = a.dur + segDurSum l := by
  simp [segDurSum]

theorem segDurSum_nil : segDurSum [] = 0 := rfl

theorem segDurSum_lineSegs (p : Proto) (img : Image) (hw : img.width = 320) (y : ℕ) :
    segDurSum (lineSegs p img y) = lineUnits p := by
  cases p <;>
    simp only [lineSegs, martinLine, scottieLine, robot36Line, robot72Line, lineUnits,
      segDurSum_append, segDurSum_cons, segDurSum_nil,
      segDurSum_chanScan, segDurSum_chromaScan, hw]

theorem segDurSum_flatten (L : List (List Segment)) :
    segDurSum L.flatten = (L.map segDurSum).sum := by
  simp only [segDurSum, List.map_flatten, List.sum_flatten, List.map_map]
  rfl

theorem segDurSum_imageSegs (p : Proto) (img : Image) (hw : img.width = 320) :
    segDurSum (imageSegs p img) = protoH p * lineUnits p := by
  rw [imageSegs, segDurSum_flatten, List.map_map]
  have h2 : ((List.range (protoH p)).map (segDurSum ∘ lineSegs p img)) =
      (List.range (protoH p)).map fun _ => lineUnits p := by
    apply List.map_congr_left
    intro y _
    exact segDurSum_lineSegs p img hw y
  rw [h2, List.map_const', List.sum_replicate, List.length_range, smul_eq_mul]

theorem segDurSum_emitVis (p : Proto) : segDurSum (emitVis p) = 91000000 := by
  cases p <;> rfl

/-- The normalized image has the protocol's target dimensions. -/
theorem normalizeImg_width (img : Image) (p : Proto) (mode : String) :
    (normalizeImg img p mode).width = protoW p := by
  unfold normalizeImg
  split <;> [rfl; split <;> rfl]

/-- Total requested duration of a complete no-CW encoding, in 10 ns units:
the 910 ms VIS header plus the protocol's scan lines. -/
def totalUnits (p : Proto) : ℕ := 91000000 + protoH p * lineUnits p

theorem segDurSum_encodePlan (p : Proto) (img : Image) (aspect : String) :
    segDurSum (encodePlan p img aspect none) = totalUnits p := by
  simp only [encodePlan, segDurSum_append, segDurSum_emitVis, totalUnits]
  rw [segDurSum_imageSegs p _ (by rw [normalizeImg_width]; rfl)]
  simp [segDurSum]

/-- Sample count of a complete no-CW encoding at rate `r`: the rounded
total duration, exactly as the carry-based synthesizer produces it. -/
def encLen (p : Proto) (r : ℕ) : ℕ := (totalUnits p * r + 50000000) / 100000000

theorem runSegs_plan_length (p : Proto) (img : Image) (aspect : String) (r : ℕ) :
    ((runSegs r ⟨0, 0⟩ (encodePlan p img aspect none)).2).length = encLen p r := by
  have h := runSegs_length r (encodePlan p img aspect none) ⟨0, 0⟩ (by norm_num) (by norm_num)
  have h2 : ((segDurSum (encodePlan p img aspect none) : ℤ) * r + 0 + 50000000)
      = ((totalUnits p * r + 50000000 : ℕ) : ℤ) := by
    rw [segDurSum_encodePlan]
    push_cast
    ring
  rw [h2] at h
  rw [show ((100000000 : ℤ)) = ((100000000 : ℕ) : ℤ) from rfl] at h
  rw [← Int.ofNat_ediv] at h
  exact_mod_cast h

theorem validateCw_none : validateCw none none none = .ok none := rfl

theorem encode_ok (img : Image) (key : String) (p : Proto) (r : ℕ)
    (hk : lookupProto key = .ok p) (hw : img.width ≠ 0) (hh : img.height ≠ 0)
    (hr1 : 8000 ≤ r) (hr2 : r ≤ 48000) :
    encode img key "center" (some (r : ℤ)) none none none =
      .ok ((runSegs r ⟨0, 0⟩ (encodePlan p img "center" none)).2) := by
  unfold encode
  rw [if_neg (by push_neg; exact ⟨hw, hh⟩), hk]
  have ha : validateAspect "center" = .ok "center" := rfl
  rw [ha]
  have hr : validateRate (some (r : ℤ)) = .ok r := by
    simp only [validateRate]
    rw [if_pos ⟨by exact_mod_cast hr1, by exact_mod_cast hr2⟩, Int.toNat_natCast]
  rw [hr, validateCw_none]

/-- Duration-accuracy bridge: the rational statement "the stream of `len`
samples at rate `r` lasts within 1% of `N/100` seconds" is equivalent to a
linear integer inequality. -/
theorem dur_bound_iff (len r N : ℕ) (hr : 0 < r) :
    |(len : ℚ) / r - (N : ℚ) / 100| ≤ ((N : ℚ) / 100) / 100 ↔
      100 * ((100 : ℤ) * len - (N : ℤ) * r).natAbs ≤ (N : ℤ) * r := by
  have hrq : (0 : ℚ) < (r : ℚ) := by exact_mod_cast hr
  set x : ℤ := (100 : ℤ) * len - (N : ℤ) * r with hx
  have key : (len : ℚ) / r - (N : ℚ) / 100 = (x : ℚ) / (100 * r) := by
    rw [hx]
    push_cast
    field_simp
    ring
  have habs : |(x : ℚ)| = ((x.natAbs : ℕ) : ℚ) := by
    rw [Int.cast_natAbs, Int.cast_abs]
  rw [key, abs_div, abs_of_pos (by positivity : (0:ℚ) < 100 * (r:ℚ)), habs, div_div,
    div_le_div_iff₀ (by positivity) (by norm_num : (0:ℚ) < 100 * 100)]
  constructor
  · intro h
    have h1 : ((x.natAbs : ℕ) : ℚ) * 10000 ≤ ((N * (100 * r) : ℕ) : ℚ) := by
      push_cast
      push_cast at h
      linarith
    have h2 : x.natAbs * 10000 ≤ N * (100 * r) := by exact_mod_cast h1
    have h3 : 100 * x.natAbs ≤ N * r := by
      rw [show N * (100 * r) = 100 * (N * r) by ring] at h2
      omega
    exact_mod_cast h3
  · intro h
    have h2 : 100 * x.natAbs ≤ N * r := by exact_mod_cast h
    have h1 : ((x.natAbs : ℕ) : ℚ) * 10000 ≤ ((N * (100 * r) : ℕ) : ℚ) := by
      have h4 : x.natAbs * 10000 ≤ N * (100 * r) := by
        rw [show N * (100 * r) = 100 * (N * r) by ring]
        omega
      exact_mod_cast h4
    push_cast at h1 ⊢
    linarith

/-- A minimal valid input image: one gray pixel. -/
def grayImage : Image := ⟨1, 1, fun _ _ => (128, 128, 128)⟩

/-- C1 (amended): for every protocol key among m1, m2, s1, s2, sdx, r36, r72
and every sample rate in [8000, 48000], `encode` on a valid image succeeds
and the stream's duration in seconds is within 1% of the protocol's
documented nominal transmission time plus the 0.91 s VIS header. -/
theorem c1_amended_duration_within_one_percent (key : String) (r : ℕ) (img : Image)
    (hk : key ∈ ["m1", "m2", "s1", "s2", "sdx", "r36", "r72"])
    (hr1 : 8000 ≤ r) (hr2 : r ≤ 48000)
    (hw : img.width ≠ 0) (hh : img.height ≠ 0) :
    ∃ (p : Proto) (s : List ℕ),
      lookupProto key = .ok p ∧
      encode img key "center" (some (r : ℤ)) none none none = .ok s ∧
      |(s.length : ℚ) / r - ((100 * nominalSec p + 91 : ℕ) : ℚ) / 100|
        ≤ (((100 * nominalSec p + 91 : ℕ) : ℚ) / 100) / 100 := by
  fin_cases hk <;>
    · refine ⟨_, _, rfl, encode_ok img _ _ r rfl hw hh hr1 hr2, ?_⟩
      rw [runSegs_plan_length, dur_bound_iff _ _ _ (by omega)]
      simp only [encLen, totalUnits, lineUnits, protoH, nominalSec]
      omega

/-- C1 witness: the amended bound instantiated at protocol m1, rate 11025
and the one-pixel gray image. -/
theorem c1_witness :
    ("m1" ∈ ["m1", "m2", "s1", "s2", "sdx", "r36", "r72"] ∧
      8000 ≤ 11025 ∧ 11025 ≤ 48000 ∧ grayImage.width ≠ 0 ∧ grayImage.height ≠ 0) ∧
    (∃ (p : Proto) (s : List ℕ),
      lookupProto "m1" = .ok p ∧
      encode grayImage "m1" "center" (some ((11025 : ℕ) : ℤ)) none none none = .ok s ∧
      |(s.length : ℚ) / (11025 : ℕ) - ((100 * nominalSec p + 91 : ℕ) : ℚ) / 100|
        ≤ (((100 * nominalSec p + 91 : ℕ) : ℚ) / 100) / 100) :=
  ⟨⟨by decide, by norm_num, by norm_num, by decide, by decide⟩,
   c1_amended_duration_within_one_percent "m1" 11025 grayImage (by decide)
     (by norm_num) (by norm_num) (by decide) (by decide)⟩

/-- C1 counterexample: at protocol r36 and rate 8000 Hz the encoder
succeeds but the stream lasts 36.91 s — the 0.91 s VIS header pushes the
duration more than 1% beyond the documented nominal 36 s, refuting the
claim as stated. -/
theorem c1_counterexample_r36_8000 :
    (encode grayImage "r36" "center" (some ((8000 : ℕ) : ℤ)) none none none).isOk = true ∧
    ¬ (|(streamLen (encode grayImage "r36" "center" (some ((8000 : ℕ) : ℤ)) none none none) : ℚ)
          / (8000 : ℕ) - (nominalSec Proto.r36 : ℚ)|
        ≤ (nominalSec Proto.r36 : ℚ) / 100) := by
  have hE := encode_ok grayImage "r36" .r36 8000 rfl (by decide) (by decide)
    (by norm_num) (by norm_num)
  constructor
  · rw [hE]
    rfl
  · rw [hE]
    have hlen : streamLen
        (.ok ((runSegs 8000 ⟨0, 0⟩ (encodePlan .r36 grayImage "center" none)).2)) = 295280 := by
      simp only [streamLen]
      rw [runSegs_plan_length]
      norm_num [encLen, totalUnits, lineUnits, protoH]
    rw [hlen]
    simp only [nominalSec]
    intro hcon
    rw [abs_le] at hcon
    norm_num at hcon

/-- C2: the encoder is deterministic: two runs of `encode` on the same image
and parameters yield sample streams of the same length that agree at every
sample position. -/
theorem c2_encode_deterministic (img : Image) (key aspect : String) (r? : Option ℤ)
    (cs : Option String) (w t : Option ℤ) (s1 s2 : List ℕ)
    (h1 : encode img key aspect r? cs w t = .ok s1)
    (h2 : encode img key aspect r? cs w t = .ok s2) :
    s1.length = s2.length ∧ ∀ i : ℕ, s1[i]? = s2[i]? := by
  have heq : s1 = s2 := by
    have h := h1.symm.trans h2
    exact Except.ok.inj h
  subst heq
  exact ⟨rfl, fun i => rfl⟩

/-- C2 witness: two runs at protocol m1, rate 8000, on the gray test image
produce identical streams. -/
theorem c2_witness :
    ∃ s1 s2 : List ℕ,
      encode grayImage "m1" "center" (some ((8000 : ℕ) : ℤ)) none none none = .ok s1 ∧
      encode grayImage "m1" "center" (some ((8000 : ℕ) : ℤ)) none none none = .ok s2 ∧
      s1.length = s2.length ∧ ∀ i : ℕ, s1[i]? = s2[i]? := by
  have h := encode_ok grayImage "m1" .m1 8000 rfl (by decide) (by decide)
    (by norm_num) (by norm_num)
  exact ⟨_, _, h, h, c2_encode_deterministic _ _ _ _ _ _ _ _ _ h h⟩

theorem lookupProto_m1 : lookupProto "m1" = .ok .m1 := rfl

theorem validateAspect_center : validateAspect "center" = .ok "center" := rfl

/-- Generic success-shape lemma: with a valid image, protocol m1, aspect
center and a valid rate, the result is `.ok` for any CW options that pass
CW validation. -/
theorem encode_m1_ok_shape (img : Image) (n : ℤ) (cs : Option String) (w t : Option ℤ)
    (cw : Option (String × ℕ × ℕ))
    (hw : img.width ≠ 0) (hh : img.height ≠ 0)
    (hr1 : 8000 ≤ n) (hr2 : n ≤ 48000)
    (hcw : validateCw cs w t = .ok cw) :
    encode img "m1" "center" (some n) cs w t =
      .ok ((runSegs n.toNat ⟨0, 0⟩ (encodePlan .m1 img "center" cw)).2) := by
  unfold encode
  rw [if_neg (by push_neg; exact ⟨hw, hh⟩), lookupProto_m1, validateAspect_center]
  have hr : validateRate (some n) = .ok n.toNat := by
    simp only [validateRate]
    rw [if_pos ⟨hr1, hr2⟩]
  rw [hr, hcw]

/-- C3: sample-rate validation is boundary-inclusive on [8000, 48000] and
total: integer rates inside the band are accepted and encoding succeeds;
integers outside the band fail with `InvalidSampleRate`; non-numeric and
fractional `-r` argument strings do not parse and fail the same way with no
output; the mapped exit code is 114. -/
theorem c3_sample_rate_validation (n : ℤ) (str : String) (img : Image)
    (hw : img.width ≠ 0) (hh : img.height ≠ 0) :
    (8000 ≤ n → n ≤ 48000 →
      validateRate (some n) = .ok n.toNat ∧
      (encode img "m1" "center" (some n) none none none).isOk = true) ∧
    (n < 8000 ∨ 48000 < n →
      encode img "m1" "center" (some n) none none none = .error .invalidSampleRate) ∧
    (parseIntArg str = none →
      encodeCli img "m1" "center" str none none none = .error .invalidSampleRate) ∧
    parseIntArg "8000" = some 8000 ∧ parseIntArg "48000" = some 48000 ∧
    parseIntArg "7999" = some 7999 ∧ parseIntArg "48001" = some 48001 ∧
    parseIntArg "0" = some 0 ∧ parseIntArg "-22050" = some (-22050) ∧
    parseIntArg "22050.5" = none ∧ parseIntArg "abc" = none ∧
    errorCode .invalidSampleRate = 114 := by
  refine ⟨?_, ?_, ?_, by decide, by decide, by decide, by decide, by decide, by decide,
    by decide, by decide, rfl⟩
  · intro ha hb
    have hr : validateRate (some n) = .ok n.toNat := by
      simp only [validateRate]
      rw [if_pos ⟨ha, hb⟩]
    refine ⟨hr, ?_⟩
    rw [encode_m1_ok_shape img n none none none none hw hh ha hb validateCw_none]
    rfl
  · intro hout
    unfold encode
    rw [if_neg (by push_neg; exact ⟨hw, hh⟩), lookupProto_m1, validateAspect_center]
    have hr : validateRate (some n) = .error .invalidSampleRate := by
      simp only [validateRate]
      rw [if_neg (by omega)]
    rw [hr]
  · intro hp
    unfold encodeCli
    rw [hp]
    unfold encode
    rw [if_neg (by push_neg; exact ⟨hw, hh⟩), lookupProto_m1, validateAspect_center]
    rfl

/-- C3 witness: the validation outcomes instantiated at rate 48000 and the
non-numeric argument string "abc" on the gray test image. -/
theorem c3_witness :
    (grayImage.width ≠ 0 ∧ grayImage.height ≠ 0) ∧
    ((8000 ≤ (48000 : ℤ) → (48000 : ℤ) ≤ 48000 →
      validateRate (some (48000 : ℤ)) = .ok (48000 : ℤ).toNat ∧
      (encode grayImage "m1" "center" (some (48000 : ℤ)) none none none).isOk = true) ∧
    ((48000 : ℤ) < 8000 ∨ (48000 : ℤ) > 48000 →
      encode grayImage "m1" "center" (some (48000 : ℤ)) none none none
        = .error .invalidSampleRate) ∧
    (parseIntArg "abc" = none →
      encodeCli grayImage "m1" "center" "abc" none none none = .error .invalidSampleRate) ∧
    parseIntArg "8000" = some 8000 ∧ parseIntArg "48000" = some 48000 ∧
    parseIntArg "7999" = some 7999 ∧ parseIntArg "48001" = some 48001 ∧
    parseIntArg "0" = some 0 ∧ parseIntArg "-22050" = some (-22050) ∧
    parseIntArg "22050.5" = none ∧ parseIntArg "abc" = none ∧
    errorCode .invalidSampleRate = 114) :=
  ⟨⟨by decide, by decide⟩,
   c3_sample_rate_validation 48000 "abc" grayImage (by decide) (by decide)⟩

theorem validateCw_no_callsign (w t : Option ℤ) (h : w.isSome ∨ t.isSome) :
    validateCw none w t = .error .cwRequiresCallsign := by
  simp only [validateCw]
  rw [if_pos]
  rcases h with h | h
  · rw [h]
    rfl
  · rw [h, Bool.or_true]

theorem validateCw_callsign_only (s : String) (hcs : callsignOk s = true) :
    validateCw (some s) none none = .ok (some (s, defaultWpm, defaultTone)) := by
  simp only [validateCw]
  rw [if_pos hcs]

theorem validateCw_full (s : String) (wv tv : ℤ) (hcs : callsignOk s = true)
    (h1 : 1 ≤ wv) (h2 : wv ≤ 50) (h3 : 400 ≤ tv) (h4 : tv ≤ 2000) :
    validateCw (some s) (some wv) (some tv) = .ok (some (s, wv.toNat, tv.toNat)) := by
  simp only [validateCw]
  rw [if_pos hcs, if_pos ⟨h1, h2⟩, if_pos ⟨h3, h4⟩]

/-- C4: a WPM value or a CW tone without a callsign fails with
`CwRequiresCallsign` (exit code 119); a well-formed callsign alone (with
default WPM and tone) succeeds, as does a callsign with valid WPM and
tone. -/
theorem c4_cw_interdependency (img : Image) (w t : Option ℤ) (s : String)
    (hw : img.width ≠ 0) (hh : img.height ≠ 0) :
    (w.isSome ∨ t.isSome →
      validateCw none w t = .error .cwRequiresCallsign ∧
      encode img "m1" "center" (some 22050) none w t = .error .cwRequiresCallsign ∧
      errorCode .cwRequiresCallsign = 119) ∧
    (callsignOk s = true →
      (encode img "m1" "center" (some 22050) (some s) none none).isOk = true) ∧
    (callsignOk s = true → ∀ wv tv : ℤ, 1 ≤ wv → wv ≤ 50 → 400 ≤ tv → tv ≤ 2000 →
      (encode img "m1" "center" (some 22050) (some s) (some wv) (some tv)).isOk = true) := by
  refine ⟨?_, ?_, ?_⟩
  · intro h
    refine ⟨validateCw_no_callsign w t h, ?_, rfl⟩
    unfold encode
    rw [if_neg (by push_neg; exact ⟨hw, hh⟩), lookupProto_m1, validateAspect_center]
    have hr : validateRate (some 22050) = .ok (22050 : ℤ).toNat := by
      simp only [validateRate]
      rw [if_pos (by norm_num)]
    rw [hr, validateCw_no_callsign w t h]
  · intro hcs
    rw [encode_m1_ok_shape img 22050 (some s) none none _ hw hh (by norm_num) (by norm_num)
      (validateCw_callsign_only s hcs)]
    rfl
  · intro hcs wv tv h1 h2 h3 h4
    rw [encode_m1_ok_shape img 22050 (some s) (some wv) (some tv) _ hw hh (by norm_num)
      (by norm_num) (validateCw_full s wv tv hcs h1 h2 h3 h4)]
    rfl

/-- C4 witness: WPM 15 without a callsign is rejected with code 119, and
callsign N0CALL alone and with WPM 20 / tone 700 succeeds, on the gray
test image. -/
theorem c4_witness :
    (grayImage.width ≠ 0 ∧ grayImage.height ≠ 0) ∧
    (((some (15 : ℤ)).isSome = true ∨ (none : Option ℤ).isSome = true →
      validateCw none (some (15 : ℤ)) none = .error .cwRequiresCallsign ∧
      encode grayImage "m1" "center" (some 22050) none (some (15 : ℤ)) none
        = .error .cwRequiresCallsign ∧
      errorCode .cwRequiresCallsign = 119) ∧
    (callsignOk "N0CALL" = true →
      (encode grayImage "m1" "center" (some 22050) (some "N0CALL") none none).isOk = true) ∧
    (callsignOk "N0CALL" = true → ∀ wv tv : ℤ, 1 ≤ wv → wv ≤ 50 → 400 ≤ tv → tv ≤ 2000 →
      (encode grayImage "m1" "center" (some 22050) (some "N0CALL") (some wv) (some tv)).isOk
        = true)) :=
  ⟨⟨by decide, by decide⟩,
   c4_cw_interdependency grayImage (some 15) none "N0CALL" (by decide) (by decide)⟩

theorem callsignOk_of_pattern (s : String) (h1 : s.length ≤ 49) (h2 : s ≠ "")
    (h3 : ∀ c ∈ s.data, c.isAlpha ∨ c.isDigit ∨ c = '/') : callsignOk s = true := by
  unfold callsignOk
  rw [Bool.and_eq_true, Bool.and_eq_true]
  refine ⟨⟨decide_eq_true h1, ?_⟩, ?_⟩
  · cases hb : s.isEmpty
    · rfl
    · exact absurd ((String.isEmpty_iff s).mp hb) h2
  · rw [List.all_eq_true]
    intro c hc
    rcases h3 c hc with h | h | h
    · simp [h]
    · simp [h]
    · simp [h]

theorem callsignOk_too_long (s : String) (h : 50 ≤ s.length) : callsignOk s = false := by
  unfold callsignOk
  rw [decide_eq_false (by omega)]
  rfl

/-- C5: every callsign of at most 49 characters over letters, digits and
`/` is accepted and encoding succeeds; any callsign of 50 or more
characters is rejected with `InvalidCallsign` and the encoder returns the
error with no stream. -/
theorem c5_callsign_length (s : String) (img : Image)
    (hw : img.width ≠ 0) (hh : img.height ≠ 0) :
    (s.length ≤ 49 → s ≠ "" → (∀ c ∈ s.data, c.isAlpha ∨ c.isDigit ∨ c = '/') →
      (encode img "m1" "center" (some 22050) (some s) none none).isOk = true) ∧
    (50 ≤ s.length →
      validateCw (some s) none none = .error .invalidCallsign ∧
      encode img "m1" "center" (some 22050) (some s) none none
        = .error .invalidCallsign) := by
  constructor
  · intro h1 h2 h3
    have hcs := callsignOk_of_pattern s h1 h2 h3
    rw [encode_m1_ok_shape img 22050 (some s) none none _ hw hh (by norm_num) (by norm_num)
      (validateCw_callsign_only s hcs)]
    rfl
  · intro hlong
    have hcs := callsignOk_too_long s hlong
    have hv : validateCw (some s) none none = .error .invalidCallsign := by
      simp only [validateCw]
      rw [if_neg (by rw [hcs]; exact Bool.false_ne_true)]
    refine ⟨hv, ?_⟩
    unfold encode
    rw [if_neg (by push_neg; exact ⟨hw, hh⟩), lookupProto_m1, validateAspect_center]
    have hr : validateRate (some 22050) = .ok (22050 : ℤ).toNat := by
      simp only [validateRate]
      rw [if_pos (by norm_num)]
    rw [hr, hv]

/-- C5 witness: the 50-character callsign AAA...A is rejected with
`InvalidCallsign` on the gray test image. -/
theorem c5_witness :
    (String.mk (List.replicate 50 'A')).length = 50 ∧
    validateCw (some (String.mk (List.replicate 50 'A'))) none none
      = .error .invalidCallsign ∧
    encode grayImage "m1" "center" (some 22050)
      (some (String.mk (List.replicate 50 'A'))) none none = .error .invalidCallsign :=
  ⟨by decide,
   (c5_callsign_length (String.mk (List.replicate 50 'A')) grayImage
     (by decide) (by decide)).2 (by decide)⟩

/-- C6: protocol lookup succeeds exactly on the seven case-sensitive
lowercase short codes; every other string — uppercase, mixed case,
near-misses, numeric VIS codes, the empty string — fails with
`InvalidProtocol`, exit code 112. -/
theorem c6_protocol_lookup_case_sensitive (k : String) :
    ((lookupProto k).isOk = true ↔ k ∈ ["m1", "m2", "s1", "s2", "sdx", "r36", "r72"]) ∧
    (k ∉ ["m1", "m2", "s1", "s2", "sdx", "r36", "r72"] →
      lookupProto k = .error .invalidProtocol ∧ errorCode .invalidProtocol = 112) := by
  unfold lookupProto
  split_ifs with h1 h2 h3 h4 h5 h6 h7 <;> subst_eqs <;>
    simp_all [List.mem_cons, Except.isOk, Except.toBool, errorCode]

/-- C6 witness: the uppercase key M1, the mixed-case Sdx, the near-misses
m12 and r360, the VIS-code string 44 and the empty string are all rejected
with `InvalidProtocol` code 112, while m1 is accepted. -/
theorem c6_witness :
    (lookupProto "m1").isOk = true ∧
    ("M1" ∉ ["m1", "m2", "s1", "s2", "sdx", "r36", "r72"]) ∧
    (lookupProto "M1" = .error .invalidProtocol ∧ errorCode .invalidProtocol = 112) ∧
    lookupProto "Sdx" = .error .invalidProtocol ∧
    lookupProto "m12" = .error .invalidProtocol ∧
    lookupProto "r360" = .error .invalidProtocol ∧
    lookupProto "44" = .error .invalidProtocol ∧
    lookupProto "" = .error .invalidProtocol :=
  ⟨by decide, by decide,
   (c6_protocol_lookup_case_sensitive "M1").2 (by decide),
   rfl, rfl, rfl, rfl, rfl⟩

/-- C7: for every protocol the VIS header is exactly the 300 ms / 1900 Hz
calibration tone, 10 ms / 1200 Hz break, 300 ms / 1900 Hz tone,
30 ms / 1200 Hz start bit, the protocol's 7-bit VIS code LSB first as seven
30 ms bits (1100 Hz for 1, 1300 Hz for 0), one even-parity bit, and a
30 ms / 1200 Hz stop bit; the codes are m1=44, m2=40, s1=60, s2=56,
sdx=76, r36=8, r72=12, each in 0..127, and data plus parity bit always
carry an even number of ones. -/
theorem c7_vis_header_bit_exact :
    emitVis Proto.m1 =
      [⟨1900, 30000000, AMP⟩, ⟨1200, 1000000, AMP⟩, ⟨1900, 30000000, AMP⟩, ⟨1200, 3000000, AMP⟩,
       ⟨1300, 3000000, AMP⟩, ⟨1300, 3000000, AMP⟩, ⟨1100, 3000000, AMP⟩, ⟨1100, 3000000, AMP⟩,
       ⟨1300, 3000000, AMP⟩, ⟨1100, 3000000, AMP⟩, ⟨1300, 3000000, AMP⟩,
       ⟨1100, 3000000, AMP⟩, ⟨1200, 3000000, AMP⟩] ∧
    emitVis Proto.m2 =
      [⟨1900, 30000000, AMP⟩, ⟨1200, 1000000, AMP⟩, ⟨1900, 30000000, AMP⟩, ⟨1200, 3000000, AMP⟩,
       ⟨1300, 3000000, AMP⟩, ⟨1300, 3000000, AMP⟩, ⟨1300, 3000000, AMP⟩, ⟨1100, 3000000, AMP⟩,
       ⟨1300, 3000000, AMP⟩, ⟨1100, 3000000, AMP⟩, ⟨1300, 3000000, AMP⟩,
       ⟨1300, 3000000, AMP⟩, ⟨1200, 3000000, AMP⟩] ∧
    emitVis Proto.s1 =
      [⟨1900, 30000000, AMP⟩, ⟨1200, 1000000, AMP⟩, ⟨1900, 30000000, AMP⟩, ⟨1200, 3000000, AMP⟩,
       ⟨1300, 3000000, AMP⟩, ⟨1300, 3000000, AMP⟩, ⟨1100, 3000000, AMP⟩, ⟨1100, 3000000, AMP⟩,
       ⟨1100, 3000000, AMP⟩, ⟨1100, 3000000, AMP⟩, ⟨1300, 3000000, AMP⟩,
       ⟨1300, 3000000, AMP⟩, ⟨1200, 3000000, AMP⟩] ∧
    emitVis Proto.s2 =
      [⟨1900, 30000000, AMP⟩, ⟨1200, 1000000, AMP⟩, ⟨1900, 30000000, AMP⟩, ⟨1200, 3000000, AMP⟩,
       ⟨1300, 3000000, AMP⟩, ⟨1300, 3000000, AMP⟩, ⟨1300, 3000000, AMP⟩, ⟨1100, 3000000, AMP⟩,
       ⟨1100, 3000000, AMP⟩, ⟨1100, 3000000, AMP⟩, ⟨1300, 3000000, AMP⟩,
       ⟨1100, 3000000, AMP⟩, ⟨1200, 3000000, AMP⟩] ∧
    emitVis Proto.sdx =
      [⟨1900, 30000000, AMP⟩, ⟨1200, 1000000, AMP⟩, ⟨1900, 30000000, AMP⟩, ⟨1200, 3000000, AMP⟩,
       ⟨1300, 3000000, AMP⟩, ⟨1300, 3000000, AMP⟩, ⟨1100, 3000000, AMP⟩, ⟨1100, 3000000, AMP⟩,
       ⟨1300, 3000000, AMP⟩, ⟨1300, 3000000, AMP⟩, ⟨1100, 3000000, AMP⟩,
       ⟨1100, 3000000, AMP⟩, ⟨1200, 3000000, AMP⟩] ∧
    emitVis Proto.r36 =
      [⟨1900, 30000000, AMP⟩, ⟨1200, 1000000, AMP⟩, ⟨1900, 30000000, AMP⟩, ⟨1200, 3000000, AMP⟩,
       ⟨1300, 3000000, AMP⟩, ⟨1300, 3000000, AMP⟩, ⟨1300, 3000000, AMP⟩, ⟨1100, 3000000, AMP⟩,
       ⟨1300, 3000000, AMP⟩, ⟨1300, 3000000, AMP⟩, ⟨1300, 3000000, AMP⟩,
       ⟨1100, 3000000, AMP⟩, ⟨1200, 3000000, AMP⟩] ∧
    emitVis Proto.r72 =
      [⟨1900, 30000000, AMP⟩, ⟨1200, 1000000, AMP⟩, ⟨1900, 30000000, AMP⟩, ⟨1200, 3000000, AMP⟩,
       ⟨1300, 3000000, AMP⟩, ⟨1300, 3000000, AMP⟩, ⟨1100, 3000000, AMP⟩, ⟨1100, 3000000, AMP⟩,
       ⟨1300, 3000000, AMP⟩, ⟨1300, 3000000, AMP⟩, ⟨1300, 3000000, AMP⟩,
       ⟨1300, 3000000, AMP⟩, ⟨1200, 3000000, AMP⟩] ∧
    visCode Proto.m1 = 44 ∧ visCode Proto.m2 = 40 ∧ visCode Proto.s1 = 60 ∧
    visCode Proto.s2 = 56 ∧ visCode Proto.sdx = 76 ∧ visCode Proto.r36 = 8 ∧
    visCode Proto.r72 = 12 ∧
    (∀ p : Proto, visCode p < 128) ∧
    (∀ p : Proto, (visOnes (visCode p) +
      (if (visParitySeg (visCode p)).freq = 1100 then 1 else 0)) % 2 = 0) := by
  decide

/-- C8: the orchestrator fails atomically: it returns an error exactly when
some validation fails, the error is the first failure in checking order,
and on success a complete stream is returned; no sample stream accompanies
a failure. -/
theorem c8_fail_fast_atomicity (img : Image) (key aspect : String) (r? : Option ℤ)
    (cs : Option String) (w t : Option ℤ) :
    (∀ e : SSTVError, encode img key aspect r? cs w t = .error e ↔
      firstValidationError img key aspect r? cs w t = some e) ∧
    (firstValidationError img key aspect r? cs w t = none →
      ∃ s : List ℕ, encode img key aspect r? cs w t = .ok s) := by
  by_cases himg : img.width = 0 ∨ img.height = 0
  · simp [encode, firstValidationError, himg]
  · cases hp : lookupProto key <;> cases ha : validateAspect aspect <;>
      cases hr : validateRate r? <;> cases hc : validateCw cs w t <;>
      simp [encode, firstValidationError, himg, hp, ha, hr, hc]

/-- C8 witness: with a missing sample rate the first (and only) validation
failure, `InvalidSampleRate`, is exactly what `encode` returns. -/
theorem c8_witness :
    firstValidationError grayImage "m1" "center" none none none none
      = some .invalidSampleRate ∧
    encode grayImage "m1" "center" none none none none = .error .invalidSampleRate :=
  ⟨by decide,
   ((c8_fail_fast_atomicity grayImage "m1" "center" none none none none).1
     .invalidSampleRate).mpr (by decide)⟩

/-- C9: the synthesizer state's phase advances across a tone call by exactly
the emitted sample count times `freq / rate` — consecutive segments connect
in phase with no discontinuity — and every sample of a zero-amplitude
(silence) segment equals the DC bias 32768, so the mean of any silence
section is exactly the configured bias. -/
theorem c9_phase_continuity_and_silence_bias (r : ℕ) (st : SynthSt) (s : Segment) :
    ((appendTone r st s).1.phase =
      Int.fract (st.phase + ((appendTone r st s).2.length : ℚ) * (s.freq / r))) ∧
    (s.amp = 0 → (∀ v ∈ (appendTone r st s).2, v = 32768) ∧
      (appendTone r st s).2.sum = 32768 * (appendTone r st s).2.length) := by
  constructor
  · simp only [appendTone, List.length_map, List.length_range]
  · intro hamp
    have hval : ∀ v ∈ (appendTone r st s).2, v = 32768 := by
      intro v hv
      simp only [appendTone, List.mem_map, List.mem_range] at hv
      obtain ⟨k, _, hk⟩ := hv
      rw [← hk, hamp, sampleVal, zero_mul, zero_add]
      norm_num
      decide
    refine ⟨hval, ?_⟩
    have hrepl : (appendTone r st s).2 = List.replicate (appendTone r st s).2.length 32768 :=
      List.eq_replicate_of_mem hval
    rw [hrepl]
    simp [List.sum_replicate, Nat.mul_comm]

/-- C9 witness: a 1 ms silence segment at rate 8000 in the initial state:
all samples equal 32768 and the phase is continued. -/
theorem c9_witness :
    ((appendTone 8000 ⟨0, 0⟩ ⟨0, 100000, 0⟩).1.phase =
      Int.fract ((0 : ℚ) + ((appendTone 8000 ⟨0, 0⟩ ⟨0, 100000, 0⟩).2.length : ℚ)
        * ((0 : ℚ) / (8000 : ℕ)))) ∧
    ((0 : ℚ) = 0 → (∀ v ∈ (appendTone 8000 ⟨0, 0⟩ ⟨0, 100000, 0⟩).2, v = 32768) ∧
      (appendTone 8000 ⟨0, 0⟩ ⟨0, 100000, 0⟩).2.sum =
        32768 * (appendTone 8000 ⟨0, 0⟩ ⟨0, 100000, 0⟩).2.length) :=
  c9_phase_continuity_and_silence_bias 8000 ⟨0, 0⟩ ⟨0, 100000, 0⟩
